import Mathlib

/-!
Verification development for the abcross sysroot manager.

Shallow embedding of `src/abcross` (Python) into Lean 4:
pure logic is translated directly, filesystem / process / network effects
are made explicit as input data or as action traces, and Python exceptions
are modelled with `Except PyError`.
-/

deriving instance DecidableEq for Except

namespace Abcross

/-- Python exception classes that the embedded code can raise.  Each
constructor carries the message (or, for `nameError`, the unresolved name). -/
inductive PyError where
  | valueError (msg : String)
  | osError (msg : String)
  | runtimeError (msg : String)
  | nameError (missing : String)
  | attributeError (missing : String)
  | indexError
  deriving DecidableEq, Repr

/-- The `Architecture` enum from `common.py`: hardware architectures supported by
AOSC OS. -/
inductive Architecture where
  | amd64
  | arm64
  | loongson3
  | powerpc
  | ppc64el
  | riscv64
  | mips64r6el
  deriving DecidableEq, Repr

/-- The `value` string for each `Architecture` enum member (`common.py`). -/
def Architecture.value : Architecture → String
  | .amd64 => "amd64"
  | .arm64 => "arm64"
  | .loongson3 => "loongson3"
  | .powerpc => "powerpc"
  | .ppc64el => "ppc64el"
  | .riscv64 => "riscv64"
  | .mips64r6el => "mips64r6el"

/-- Embeds the `Architecture(identifier)` enum lookup by value: `none` models the
`ValueError` the Python enum constructor raises on an unknown identifier. -/
def Architecture.ofString : String → Option Architecture
  | "amd64" => some .amd64
  | "arm64" => some .arm64
  | "loongson3" => some .loongson3
  | "powerpc" => some .powerpc
  | "ppc64el" => some .ppc64el
  | "riscv64" => some .riscv64
  | "mips64r6el" => some .mips64r6el
  | _ => none

/-- Embeds `Architecture.qemu_arch` (`common.py`): architecture name in qemu
nomenclature. -/
def Architecture.qemu_arch : Architecture → String
  | .amd64 => "amd64"
  | .arm64 => "aarch64"
  | .loongson3 => "mips64el"
  | .powerpc => "ppc"
  | .ppc64el => "ppc64le"
  | .riscv64 => "riscv64"
  | .mips64r6el => "mips64el"

/-- Embeds `Architecture.qemu_bin` (`common.py`): `f"qemu-{self.qemu_arch()}-static"`. -/
def Architecture.qemu_bin (a : Architecture) : String :=
  "qemu-" ++ a.qemu_arch ++ "-static"

/-- The binfmt_misc registration path computed inside
`Architecture.has_qemu_program` (`common.py`):
`f"/proc/sys/fs/binfmt_misc/qemu-{self.qemu_arch()}"`. -/
def Architecture.binfmt_reg_name (a : Architecture) : String :=
  "/proc/sys/fs/binfmt_misc/qemu-" ++ a.qemu_arch

/-- Embeds `Architecture.match_current_arch` (`common.py`): a static method mapping
the host machine string reported by `platform.machine()` to a supported
`Architecture`, or `None`.  An ambiguous `"mips64"` host and any unknown
machine string both yield `None`. -/
def Architecture.match_current_arch (machine : String) : Option Architecture :=
  match machine with
  | "x86_64" => some .amd64
  | "aarch64" => some .arm64
  | "riscv64" => some .riscv64
  | "ppc" => some .powerpc
  | "ppc64le" => some .ppc64el
  | _ => none

/-- Python `str.strip()` on the model side: drop whitespace from both ends.
(`String.trim` from core is avoided because its implementation does not
reduce inside the kernel.) -/
def pyStrip (s : String) : String :=
  ⟨((s.data.dropWhile Char.isWhitespace).reverse.dropWhile Char.isWhitespace).reverse⟩

/-- Embeds `Architecture.has_qemu_program` (`common.py`).  The host filesystem is
made explicit: `binfmtLines` is `readlines()` of the binfmt_misc registration
file at `binfmt_reg_name`, or `none` when opening it raises `OSError`.

Faithful to the source:
* absent file: the `OSError` is caught, a critical diagnostic is logged and
  the method returns `None`;
* empty file: `binfmt_reg_content[0]` raises `IndexError`;
* first line not `"enabled"` after `strip()`: logs and returns `None`;
* otherwise the method evaluates `re.match(...)` — but `common.py` never
  imports `re`, so the name lookup raises `NameError` and the interpreter
  matching code below that line is unreachable. -/
def Architecture.has_qemu_program (_a : Architecture)
    (binfmtLines : Option (List String)) : Except PyError (Option String) :=
  match binfmtLines with
  | none => .ok none
  | some [] => .error .indexError
  | some (l0 :: _) =>
    if pyStrip l0 ≠ "enabled" then .ok none
    else .error (.nameError "re")

/-- Result of `Sysroot.containerize` when it reaches the spawn call:
the full `systemd-nspawn` argv handed to the privileged executor. -/
inductive ContainerizeOutcome where
  | spawned (cmd : List String)
  deriving DecidableEq, Repr

/-- Embeds `Sysroot.containerize` (`sysroot.py`).  `hostMachine` is what
`platform.machine()` reports; `path` is the sysroot path.

Faithful to the source, the guard is
`if not self.arch.match_current_arch() and not self.arch.have_qemu():`.
`match_current_arch` is a static host detector, so its truthiness depends
only on `hostMachine`, never on `self.arch`.  When the host machine is
recognised, the short-circuit `and` skips the second operand and the spawn
proceeds unconditionally.  When it is not recognised, Python evaluates
`self.arch.have_qemu()`; `Architecture` defines no attribute `have_qemu`
(the existing method is `has_qemu_program`), so the attribute lookup raises
`AttributeError` and the logged no-op `return None` branch is unreachable. -/
def containerize (arch : Architecture) (hostMachine : String) (path : String)
    (argv : Option (List String)) (nspawnArgs : List String) :
    Except PyError ContainerizeOutcome :=
  let argv := argv.getD ["/bin/sh"]
  if (Architecture.match_current_arch hostMachine).isSome then
    .ok (.spawned (["systemd-nspawn", "--hostname=abcross-" ++ arch.value,
      "-D", path] ++ nspawnArgs ++ ["--as-pid2"] ++ argv))
  else
    .error (.attributeError "have_qemu")

/-! ## Fetch and verify (`tar.py`, `download_tarball`) -/

/-- Observable outcome of `download_tarball`: whether the destination file is
still on disk when the call returns, and the Python-level result. -/
structure DownloadOutcome where
  destFileExists : Bool
  result : Except PyError Unit
  deriving DecidableEq, Repr

/-- Streaming state of the `download_tarball` loop: bytes written to the
destination file so far, and bytes fed to the running hash so far. -/
structure DownloadState where
  written : List Nat
  hashed : List Nat
  deriving DecidableEq, Repr

/-- One iteration of the download loop (`tar.py`): write the chunk, and feed
it to the digest only when a checksum was supplied
(`if sha256sum is not None: checksumming.update(buf)`). -/
def downloadStep (hasSum : Bool) (st : DownloadState) (buf : List Nat) : DownloadState :=
  { written := st.written ++ buf
    hashed := if hasSum then st.hashed ++ buf else st.hashed }

/-- Embeds `download_tarball` (`tar.py`).  The network response body is the list of
chunks successive `incoming.read(length)` calls return; `sha256hex` abstracts
`hashlib.sha256(...).hexdigest()` as a function from the hashed bytes to the
hex digest string.  After the loop, if a checksum was supplied and the
computed digest differs, the file is removed (`dest_file.unlink`) and a
`RuntimeError` is raised whose message carries the expected and the actual
digest. -/
def download_tarball (chunks : List (List Nat)) (sha256hex : List Nat → String)
    (sha256sum : Option String) : DownloadOutcome :=
  let st := chunks.foldl (downloadStep sha256sum.isSome) ⟨[], []⟩
  match sha256sum with
  | some s =>
    if sha256hex st.hashed ≠ s then
      { destFileExists := false
        result := .error (.runtimeError ("Downloaded file has wrong checksum!\n"
          ++ "Expected: " ++ s ++ "\n" ++ "Got:      " ++ sha256hex st.hashed)) }
    else { destFileExists := true, result := .ok () }
  | none => { destFileExists := true, result := .ok () }

/-! ## Manifest and release resolver (`distribution.py`) -/

/-- One tarball descriptor of the manifest (`recipe.json` shape).  `arch` is
kept as the raw manifest string: `get_release_tarball_info` parses it with
the throwing `Architecture(...)` constructor. -/
structure TarballEntry where
  arch : String
  date : String
  path : String
  sha256sum : String
  downloadSize : Nat
  instSize : Nat
  deriving DecidableEq, Repr

/-- One variant-release group of the manifest.  `name` is the raw string
(parsed by the throwing `Variant(...)` constructor); `tarballs` is `none`
when the group has no `"tarballs"` key. -/
structure VariantGroup where
  name : String
  tarballs : Option (List TarballEntry)
  deriving DecidableEq, Repr

/-- The parsed manifest document.  `variants` is `none` when the `"variants"`
key is absent. -/
structure Manifest where
  variants : Option (List VariantGroup)
  deriving DecidableEq, Repr

/-- The `Variant` enum from `distribution.py`. -/
inductive Variant where
  | base
  | buildkit
  | server
  | desktop
  | desktopNvidia
  | x11
  deriving DecidableEq, Repr

/-- The `value` string of each `Variant` member. -/
def Variant.value : Variant → String
  | .base => "Base"
  | .buildkit => "BuildKit"
  | .server => "Server"
  | .desktop => "Desktop"
  | .desktopNvidia => "Desktop (with NVIDIA driver)"
  | .x11 => "X11"

/-- Embeds the `Variant(name)` enum lookup by value; `none` models the `ValueError`
raised on an unknown name. -/
def Variant.ofString : String → Option Variant
  | "Base" => some .base
  | "BuildKit" => some .buildkit
  | "Server" => some .server
  | "Desktop" => some .desktop
  | "Desktop (with NVIDIA driver)" => some .desktopNvidia
  | "X11" => some .x11
  | _ => none

/-- The grouping loop of `get_release_tarball_info`: for each group, parse
`Variant(variant_releases["name"])` (raising `ValueError` on an unknown
name), register the variant key, and append the group's tarballs (a missing
`"tarballs"` key contributes nothing).  The resulting association list, read
in order with duplicate keys merged, is the `tarballs_per_variant` dict. -/
def parseGroups : List VariantGroup → Except PyError (List (Variant × List TarballEntry))
  | [] => .ok []
  | g :: rest =>
    match Variant.ofString g.name with
    | none => .error (.valueError (g.name ++ " is not a valid Variant"))
    | some v =>
      match parseGroups rest with
      | .error e => .error e
      | .ok pairs => .ok ((v, g.tarballs.getD []) :: pairs)

/-- The architecture filter of `get_release_tarball_info`: the comprehension
`[t for t in tarballs if Architecture(t["arch"]) == architecture]`, which
raises `ValueError` at the first entry whose `arch` string is not a valid
architecture identifier. -/
def filterArch : List TarballEntry → Architecture → Except PyError (List TarballEntry)
  | [], _ => .ok []
  | t :: rest, a =>
    match Architecture.ofString t.arch with
    | none => .error (.valueError (t.arch ++ " is not a valid Architecture"))
    | some ta =>
      match filterArch rest a with
      | .error e => .error e
      | .ok r => .ok (if ta = a then t :: r else r)

/-- Python string comparison is lexicographic on code points, which is the
`List Char` lexicographic order on `String.data`.  (`String.lt` itself is
avoided because its `ltb` implementation does not reduce inside the
kernel.) -/
def pyStrLt (a b : String) : Prop := a.data < b.data

instance (a b : String) : Decidable (pyStrLt a b) :=
  inferInstanceAs (Decidable (a.data < b.data))

/-- Python `max(tarballs_arch, key=lambda t: t["date"])`: scan left to right,
replacing the current maximum only on a strictly greater key, so of several
entries sharing the greatest date the first-encountered one wins. -/
def pyMaxByDate (cur : TarballEntry) : List TarballEntry → TarballEntry
  | [] => cur
  | t :: rest => pyMaxByDate (if pyStrLt cur.date t.date then t else cur) rest

/-- Embeds `get_release_tarball_info` (`distribution.py`): raise on a manifest
without a variants list; group tarballs per parsed variant; return `None`
when the requested variant never occurs; filter the variant's tarballs by
architecture; return `None` when no entry matches; otherwise return the
`max` by release date. -/
def get_release_tarball_info (manifest : Manifest) (architecture : Architecture)
    (variant : Variant) : Except PyError (Option TarballEntry) :=
  match manifest.variants with
  | none => .error (.valueError "Malformed manifest: This stuff does not have variants list")
  | some groups =>
    match parseGroups groups with
    | .error e => .error e
    | .ok pairs =>
      if pairs.any (fun p => decide (p.1 = variant)) then
        match filterArch ((pairs.filter (fun p => decide (p.1 = variant))).flatMap
            (fun p => p.2)) architecture with
        | .error e => .error e
        | .ok [] => .ok none
        | .ok (t :: ts) => .ok (some (pyMaxByDate t ts))
      else .ok none

/-- Statement-side vocabulary: all tarball entries listed under groups whose
name parses to `v`, in manifest order. -/
def variantTarballs (gs : List VariantGroup) (v : Variant) : List TarballEntry :=
  (gs.filter (fun g => decide (Variant.ofString g.name = some v))).flatMap
    (fun g => g.tarballs.getD [])

/-- Statement-side vocabulary: the tarball entries of the manifest matching an
(architecture, variant) request — entries under the requested variant whose
`arch` string parses to the requested architecture. -/
def matchingEntries (m : Manifest) (a : Architecture) (v : Variant) : List TarballEntry :=
  (variantTarballs (m.variants.getD []) v).filter
    (fun t => decide (Architecture.ofString t.arch = some a))

/-! ## Extraction engine (`tar.py`, `extract_tarball`) -/

/-- The filesystem facts `extract_tarball` queries about its two path
arguments, plus the exit status of the `tar` subprocess were it to run. -/
structure ExtractFS where
  tarballExists : Bool
  tarballIsFile : Bool
  destExists : Bool
  destIsDir : Bool
  destHasEntry : Bool
  tarRet : Nat
  deriving DecidableEq, Repr

/-- Outcome of `extract_tarball`: whether the external archiver subprocess
was spawned, and the Python-level result. -/
structure ExtractResult where
  archiverInvoked : Bool
  outcome : Except PyError Unit
  deriving DecidableEq, Repr

/-- Embeds `extract_tarball` (`tar.py`).  Sanity checks in source order, each
raising `ValueError` before `subprocess.Popen` runs; then the archiver is
spawned and a non-zero exit status becomes an `OSError`. -/
def extract_tarball (fs : ExtractFS) : ExtractResult :=
  if ¬ fs.tarballExists ∨ ¬ fs.tarballIsFile then
    ⟨false, .error (.valueError "Tarball does not exist or is not a regular file")⟩
  else if ¬ fs.destExists ∨ ¬ fs.destIsDir then
    ⟨false, .error (.valueError "Destination sysroot is not a directory")⟩
  else if fs.destHasEntry then
    ⟨false, .error (.valueError "Destination sysroot is not empty. Refusing to overwrite.")⟩
  else if fs.tarRet ≠ 0 then
    ⟨true, .error (.osError ("tar returned non zero exit status " ++ toString fs.tarRet))⟩
  else ⟨true, .ok ()⟩

/-! ## Deployment orchestrator (`distribution.py`, `do_deploy`) -/

/-- The side effects `do_deploy` can perform, in the order they are recorded:
privileged `rm -rf` of the destination, privileged `mkdir -p` of the
destination, `tempfile.mkdtemp` for ephemeral staging, the stale-file
`shutil.rmtree` inside `get_tarball`, the actual `download_tarball` call, the
`tar` subprocess of `extract_tarball`, and the final `shutil.rmtree` of the
ephemeral staging directory. -/
inductive DeployAction where
  | rmRfDest
  | mkdirDest
  | mkTempDir
  | rmStaleTarball
  | download
  | archiver
  | rmTempDir
  deriving DecidableEq, Repr

/-- The orchestrator's observable result: the trace of side effects it
performed and either an exit status or an uncaught Python exception. -/
structure DeployResult where
  actions : List DeployAction
  outcome : Except PyError Nat
  deriving DecidableEq, Repr

/-- The `deploy` subcommand arguments `do_deploy` reads. -/
structure Args where
  force : Bool
  cache : Bool
  deriving DecidableEq, Repr

/-- The environment one `do_deploy` run observes.  The manifest is the
already-fetched document (`get_manifest` is a plain fetch-and-parse);
privileged subprocess exit codes and filesystem facts are explicit inputs.
`cacheMkdirError` is the exception `CACHE_DIR.mkdir` would raise (`none` for
success); `cachedTarballExists` says whether a file is already present at the
computed tarball save path; `downloadError` is the exception
`download_tarball` would raise (`none` for success). -/
structure World where
  manifest : Manifest
  arch : Architecture
  variant : Variant
  destExists : Bool
  destIsDir : Bool
  destNonEmpty : Bool
  rmRfRet : Nat
  mkdirDestRet : Nat
  cacheDirOk : Bool
  cacheMkdirError : Option PyError
  cachedTarballExists : Bool
  downloadError : Option PyError
  tarRet : Nat
  deriving Repr

/-- Stages of `do_deploy` after the destination directory has been prepared:
cache-directory selection, `get_tarball` with `overwrite=False`, extraction,
and ephemeral-staging cleanup.  `dExists`, `dIsDir`, `dNonEmpty` describe the
destination after the preparation phase.

Cache selection is faithful to the source: with caching requested and the
persistent cache directory unavailable, `CACHE_DIR.mkdir` runs inside
`try ... except RuntimeError`; only a `RuntimeError` is caught (logging the
fallback warning and clearing `args.cache`), any other exception — in
particular the `OSError` a failing `mkdir` actually raises — propagates out
of `do_deploy`.  On a successful `mkdir` the code keeps `args.cache` set (and
leaves `download_path` at its `PosixPath()` default; path identity is not
modelled here). -/
def deployStage2 (w : World) (args : Args) (acts : List DeployAction)
    (dExists dIsDir dNonEmpty : Bool) : DeployResult :=
  let effCache : Except PyError Bool :=
    if args.cache then
      if w.cacheDirOk then .ok true
      else
        match w.cacheMkdirError with
        | none => .ok true
        | some (.runtimeError _) => .ok false
        | some e => .error e
    else .ok false
  match effCache with
  | .error e => ⟨acts, .error e⟩
  | .ok eff =>
    let acts := if eff then acts else acts ++ [.mkTempDir]
    if w.cachedTarballExists then
      -- get_tarball: overwrite=False and the file exists — reuse, no download
      deployExtract w acts dExists dIsDir dNonEmpty eff
    else
      match w.downloadError with
      | some e => ⟨acts ++ [.rmStaleTarball, .download], .error e⟩
      | none => deployExtract w (acts ++ [.rmStaleTarball, .download]) dExists dIsDir dNonEmpty eff
where
  /-- Embeds `extract_tarball(local_tarball, s.path)` and the final cleanup.  The
  tarball path was just downloaded or found on disk, so its own checks pass. -/
  deployExtract (w : World) (acts : List DeployAction)
      (dExists dIsDir dNonEmpty : Bool) (eff : Bool) : DeployResult :=
    let er := extract_tarball ⟨true, true, dExists, dIsDir, dNonEmpty, w.tarRet⟩
    let acts := if er.archiverInvoked then acts ++ [.archiver] else acts
    match er.outcome with
    | .error e => ⟨acts, .error e⟩
    | .ok () => if eff then ⟨acts, .ok 0⟩ else ⟨acts ++ [.rmTempDir], .ok 0⟩

/-- Embeds `do_deploy` (`distribution.py`).  In source order: resolve the release
(status 1 when none is available, manifest errors propagate); pre-download
check on a non-empty destination directory (status 1 without `--force`,
privileged `rm -rf` with `--force`, status 2 when it fails); privileged
`mkdir -p` of a missing destination (status 2 on failure); then
`deployStage2`.  A successful forced `rm -rf` leaves the destination absent,
and a successful `mkdir -p` leaves it an empty directory. -/
def do_deploy (w : World) (args : Args) : DeployResult :=
  match get_release_tarball_info w.manifest w.arch w.variant with
  | .error e => ⟨[], .error e⟩
  | .ok none => ⟨[], .ok 1⟩
  | .ok (some _) =>
    if w.destIsDir ∧ w.destNonEmpty then
      if ¬ args.force then ⟨[], .ok 1⟩
      else if w.rmRfRet ≠ 0 then ⟨[.rmRfDest], .ok 2⟩
      else
        -- destination deleted; `mkdir -p` recreates it as an empty directory
        if w.mkdirDestRet ≠ 0 then ⟨[.rmRfDest, .mkdirDest], .ok 2⟩
        else deployStage2 w args [.rmRfDest, .mkdirDest] true true false
    else
      if ¬ w.destExists then
        if w.mkdirDestRet ≠ 0 then ⟨[.mkdirDest], .ok 2⟩
        else deployStage2 w args [.mkdirDest] true true false
      else deployStage2 w args [] w.destExists w.destIsDir w.destNonEmpty

/-- Companion of `pyStrLt`: Python string less-or-equal, lexicographic on
code points. -/
def pyStrLe (a b : String) : Prop := a.data ≤ b.data

instance (a b : String) : Decidable (pyStrLe a b) :=
  inferInstanceAs (Decidable (a.data ≤ b.data))

/-! ## Concrete inputs used by witnesses and counterexamples -/

/-- The amd64 Base entry dated 20220508 of the repository's test fixture. -/
def entryBase0508 : TarballEntry :=
  ⟨"amd64", "20220508", "os-amd64/base/aosc-os_base_20220508_amd64.tar.xz",
    "39818e36c668d2dd5436bca07b3097e3b1d731d29a8006182fd5694f655fafdd",
    794907932, 3919198720⟩

/-- The amd64 Base entry dated 20220826 of the repository's test fixture. -/
def entryBase0826 : TarballEntry :=
  ⟨"amd64", "20220826", "os-amd64/base/aosc-os_base_20220826_amd64.tar.xz",
    "31d2e11c771dbcf25deb1fbbf55ec9f79157902be6a7531273684051b5f7ec3b",
    985854784, 3629212160⟩

/-- The riscv64 Base entry dated 20220508 of the repository's test fixture. -/
def entryRiscv0508 : TarballEntry :=
  ⟨"riscv64", "20220508", "os-riscv64/base/aosc-os_base_20220508_riscv64.tar.xz",
    "0a2ddd7e5db9d8b8454a48c208817db769bf9f9d8529936b2d96b542e80bc85d",
    638466720, 3457007616⟩

/-- Well-formed variant groups shaped like the repository's test fixture: a
Server group and a Base group holding riscv64/amd64 entries. -/
def groupsExample : List VariantGroup :=
  [⟨"Server", some [entryBase0508]⟩,
   ⟨"Base", some [entryRiscv0508, entryBase0508, entryBase0826]⟩]

/-- A manifest holding two matching amd64 Base entries followed by a group
whose name is not a valid variant label. -/
def manifestBogusTail : Manifest :=
  ⟨some [⟨"Base", some [entryBase0508, entryBase0826]⟩, ⟨"Bogus", none⟩]⟩

/-- A manifest with a variants list whose only group name is not a valid
variant label. -/
def manifestBogusOnly : Manifest := ⟨some [⟨"Bogus", none⟩]⟩

/-- A one-entry manifest used by the deployment worlds. -/
def manifestDeploy : Manifest := ⟨some [⟨"Base", some [entryBase0826]⟩]⟩

/-- A deploy run asking for the persistent cache while the cache directory is
absent and `CACHE_DIR.mkdir` raises `OSError` (how `pathlib` actually reports
a failed directory creation, e.g. `PermissionError`).  The destination does
not exist yet and everything else would succeed. -/
def worldCacheOsError : World where
  manifest := manifestDeploy
  arch := .amd64
  variant := .base
  destExists := false
  destIsDir := false
  destNonEmpty := false
  rmRfRet := 0
  mkdirDestRet := 0
  cacheDirOk := false
  cacheMkdirError := some (.osError "Permission denied")
  cachedTarballExists := false
  downloadError := none
  tarRet := 0

/-- The same run, except `CACHE_DIR.mkdir` raises `RuntimeError` — the only
exception class `do_deploy` actually catches. -/
def worldCacheRuntimeError : World :=
  { worldCacheOsError with cacheMkdirError := some (.runtimeError "boom") }

/-- A deploy run against a destination that is a non-empty directory. -/
def worldNonEmptyDest : World :=
  { worldCacheOsError with
    destExists := true
    destIsDir := true
    destNonEmpty := true
    cacheMkdirError := none }

/-- A deploy run against a destination path that exists but is not a
directory (a regular file). -/
def worldFileDest : World :=
  { worldCacheOsError with
    destExists := true
    destIsDir := false
    cacheMkdirError := none }

/-- A hash function for the download witness: the decimal length of the
hashed byte list. -/
def lenHash (l : List Nat) : String := toString l.length

/-! ## Helper lemmas -/

/-- Unrolling the download loop: the file receives the concatenation of all
chunks, and the digest receives the same bytes exactly when a checksum was
supplied. -/
theorem downloadStep_foldl (b : Bool) (chunks : List (List Nat)) (init : DownloadState) :
    chunks.foldl (downloadStep b) init =
      ⟨init.written ++ chunks.flatten,
        if b then init.hashed ++ chunks.flatten else init.hashed⟩ := by
  induction chunks generalizing init with
  | nil => cases b <;> simp
  | cons c rest ih =>
    simp only [List.foldl_cons, ih, downloadStep, List.flatten_cons]
    cases b <;> simp [List.append_assoc]

/-- The per-group invariant linking a manifest group to its entry in the
`tarballs_per_variant` association: the group name parses to the key and the
value is the group's tarball list. -/
def GroupRel (g : VariantGroup) (p : Variant × List TarballEntry) : Prop :=
  Variant.ofString g.name = some p.1 ∧ p.2 = g.tarballs.getD []

/-- When every group name parses, `parseGroups` succeeds and produces pairs
related group-by-group to the input. -/
theorem parseGroups_ok (gs : List VariantGroup)
    (h : ∀ g ∈ gs, (Variant.ofString g.name).isSome) :
    ∃ pairs, parseGroups gs = .ok pairs ∧ List.Forall₂ GroupRel gs pairs := by
  induction gs with
  | nil => exact ⟨[], rfl, List.Forall₂.nil⟩
  | cons g rest ih =>
    obtain ⟨v, hv⟩ := Option.isSome_iff_exists.mp (h g (List.mem_cons_self g rest))
    obtain ⟨pairs, hp, hf⟩ := ih (fun x hx => h x (List.mem_cons_of_mem g hx))
    refine ⟨(v, g.tarballs.getD []) :: pairs, ?_, List.Forall₂.cons ⟨hv, rfl⟩ hf⟩
    simp only [parseGroups, hv, hp]

/-- Membership in the `tarballs_per_variant` dict matches group names parsing
to the requested variant. -/
theorem dict_any_eq {gs : List VariantGroup} {pairs : List (Variant × List TarballEntry)}
    (v : Variant) (hf : List.Forall₂ GroupRel gs pairs) :
    pairs.any (fun p => decide (p.1 = v))
      = gs.any (fun g => decide (Variant.ofString g.name = some v)) := by
  induction hf with
  | nil => rfl
  | @cons g p gs2 pairs2 hR _ ih =>
    simp only [List.any_cons, ih]
    congr 1
    exact decide_eq_decide.mpr (by rw [hR.1, Option.some_inj])

/-- The dict value for the requested variant is the concatenation of the
tarball lists of all groups whose name parses to it. -/
theorem dict_get_eq {gs : List VariantGroup} {pairs : List (Variant × List TarballEntry)}
    (v : Variant) (hf : List.Forall₂ GroupRel gs pairs) :
    (pairs.filter (fun p => decide (p.1 = v))).flatMap (fun p => p.2)
      = variantTarballs gs v := by
  induction hf with
  | nil => rfl
  | @cons g p gs2 pairs2 hR _ ih =>
    have hdec : decide (p.1 = v) = decide (Variant.ofString g.name = some v) :=
      decide_eq_decide.mpr (by rw [hR.1, Option.some_inj])
    simp only [variantTarballs, List.filter_cons] at *
    rw [hdec]
    cases hb : decide (Variant.ofString g.name = some v) <;>
      simp [List.flatMap_cons, hR.2, ih]

/-- When every entry's architecture string parses, the throwing architecture
comprehension reduces to a plain filter. -/
theorem filterArch_ok (ts : List TarballEntry) (a : Architecture)
    (h : ∀ t ∈ ts, (Architecture.ofString t.arch).isSome) :
    filterArch ts a
      = .ok (ts.filter (fun t => decide (Architecture.ofString t.arch = some a))) := by
  induction ts with
  | nil => rfl
  | cons t rest ih =>
    obtain ⟨ta, hta⟩ := Option.isSome_iff_exists.mp (h t (List.mem_cons_self t rest))
    have ih2 := ih (fun x hx => h x (List.mem_cons_of_mem t hx))
    simp only [filterArch, hta, ih2, List.filter_cons]
    by_cases h2 : ta = a <;> simp [h2]

/-- The scanned maximum of the release-date fold is an element of the
scanned list. -/
theorem pyMaxByDate_mem : ∀ (ts : List TarballEntry) (cur : TarballEntry),
    pyMaxByDate cur ts ∈ cur :: ts := by
  intro ts
  induction ts with
  | nil => intro cur; exact List.mem_singleton.mpr rfl
  | cons t rest ih =>
    intro cur
    simp only [pyMaxByDate]
    by_cases hct : pyStrLt cur.date t.date
    · rw [if_pos hct]
      rcases List.mem_cons.mp (ih t) with h | h
      · exact List.mem_cons.mpr (Or.inr (List.mem_cons.mpr (Or.inl h)))
      · exact List.mem_cons.mpr (Or.inr (List.mem_cons.mpr (Or.inr h)))
    · rw [if_neg hct]
      rcases List.mem_cons.mp (ih cur) with h | h
      · exact List.mem_cons.mpr (Or.inl h)
      · exact List.mem_cons.mpr (Or.inr (List.mem_cons.mpr (Or.inr h)))

/-- No element of the scanned list has a date above the scanned maximum. -/
theorem pyMaxByDate_ge : ∀ (ts : List TarballEntry) (cur u : TarballEntry),
    u ∈ cur :: ts → u.date.data ≤ (pyMaxByDate cur ts).date.data := by
  intro ts
  induction ts with
  | nil =>
    intro cur u hu
    rw [List.mem_singleton] at hu
    subst hu; exact le_rfl
  | cons t rest ih =>
    intro cur u hu
    simp only [pyMaxByDate]
    by_cases hct : pyStrLt cur.date t.date
    · rw [if_pos hct]
      rcases List.mem_cons.mp hu with rfl | hu2
      · exact le_trans (le_of_lt hct) (ih t t (List.mem_cons_self t rest))
      · exact ih t u hu2
    · rw [if_neg hct]
      rcases List.mem_cons.mp hu with rfl | hu2
      · exact ih _ _ (List.mem_cons_self _ rest)
      · rcases List.mem_cons.mp hu2 with rfl | hu3
        · exact le_trans (le_of_not_lt hct) (ih _ _ (List.mem_cons_self _ rest))
        · exact ih _ u (List.mem_cons.mpr (Or.inr hu3))

/-- Stability of the scan: the scanned maximum occurs at a position all of
whose predecessors have strictly smaller dates (the first-encountered
maximum wins ties). -/
theorem pyMaxByDate_split : ∀ (ts : List TarballEntry) (cur : TarballEntry),
    ∃ l₁ l₂, cur :: ts = l₁ ++ pyMaxByDate cur ts :: l₂ ∧
      ∀ u ∈ l₁, u.date.data < (pyMaxByDate cur ts).date.data := by
  intro ts
  induction ts with
  | nil => intro cur; exact ⟨[], [], rfl, by simp⟩
  | cons t rest ih =>
    intro cur
    simp only [pyMaxByDate]
    by_cases hct : pyStrLt cur.date t.date
    · rw [if_pos hct]
      obtain ⟨l₁, l₂, heq, hlt⟩ := ih t
      refine ⟨cur :: l₁, l₂, ?_, ?_⟩
      · rw [List.cons_append, ← heq]
      · intro u hu
        rcases List.mem_cons.mp hu with rfl | hu2
        · exact lt_of_lt_of_le hct (pyMaxByDate_ge rest t t (List.mem_cons_self t rest))
        · exact hlt u hu2
    · rw [if_neg hct]
      obtain ⟨l₁, l₂, heq, hlt⟩ := ih cur
      cases l₁ with
      | nil =>
        obtain ⟨hcur, hrest⟩ := List.cons_eq_cons.mp (by simpa using heq)
        exact ⟨[], t :: rest, by rw [List.nil_append, ← hcur], by simp⟩
      | cons x l₁2 =>
        rw [List.cons_append] at heq
        obtain ⟨hx, hrest⟩ := List.cons_eq_cons.mp heq
        have hcurlt : cur.date.data < (pyMaxByDate cur rest).date.data := by
          have := hlt x (List.mem_cons_self x l₁2)
          rwa [← hx] at this
        refine ⟨cur :: t :: l₁2, l₂, ?_, ?_⟩
        · rw [List.cons_append, List.cons_append, ← hrest]
        · intro u hu
          rcases List.mem_cons.mp hu with rfl | hu2
          · exact hcurlt
          · rcases List.mem_cons.mp hu2 with rfl | hu3
            · exact lt_of_le_of_lt (le_of_not_lt hct) hcurlt
            · exact hlt u (List.mem_cons.mpr (Or.inr hu3))

/-! ## Claim theorems -/

/-- Claim C1: whenever an expected checksum is supplied and the digest of the
written bytes differs from it, `download_tarball` removes the destination
file (it no longer exists on return) and raises a checksum-mismatch error
whose message carries both the expected and the actual hex digest. -/
theorem download_checksum_mismatch_deletes_file
    (chunks : List (List Nat)) (sha256hex : List Nat → String) (s : String)
    (h : sha256hex chunks.flatten ≠ s) :
    download_tarball chunks sha256hex (some s) =
      ⟨false, .error (.runtimeError ("Downloaded file has wrong checksum!\n"
        ++ "Expected: " ++ s ++ "\n" ++ "Got:      " ++ sha256hex chunks.flatten))⟩ := by
  simp only [download_tarball, downloadStep_foldl, Option.isSome_some, if_true,
    List.nil_append]
  rw [if_pos h]

/-- Witness for C1 at a concrete download: two chunks flattening to three
bytes, a length-string hash, and an expected digest that differs. -/
theorem download_checksum_mismatch_deletes_file_witness :
    lenHash ([[1], [2, 3]] : List (List Nat)).flatten ≠ "9" ∧
    download_tarball [[1], [2, 3]] lenHash (some "9") =
      ⟨false, .error (.runtimeError ("Downloaded file has wrong checksum!\n"
        ++ "Expected: " ++ "9" ++ "\n"
        ++ "Got:      " ++ lenHash ([[1], [2, 3]] : List (List Nat)).flatten))⟩ :=
  ⟨by decide, download_checksum_mismatch_deletes_file [[1], [2, 3]] lenHash "9" (by decide)⟩

/-- Claim C4 (code bug evidence): when caching is requested, the persistent
cache directory is missing and creating it fails with the `OSError` that
`mkdir` actually raises, `do_deploy` does not fall back to a temporary
directory — the exception escapes (first conjunct: no download happens, the
run dies with the `OSError`).  The fallback-with-warning branch only fires
for a `RuntimeError`, which directory creation does not raise (second
conjunct). -/
theorem deploy_cache_mkdir_oserror_propagates :
    do_deploy worldCacheOsError ⟨false, true⟩ =
      ⟨[.mkdirDest], .error (.osError "Permission denied")⟩ ∧
    do_deploy worldCacheRuntimeError ⟨false, true⟩ =
      ⟨[.mkdirDest, .mkTempDir, .rmStaleTarball, .download, .archiver, .rmTempDir],
        .ok 0⟩ := by
  constructor <;> decide

/-- Claim C5 (code bug evidence): an arm64 sysroot on an x86_64 host with no
emulation information consulted at all — `containerize` still spawns the
namespace container, because its guard only tests whether the host machine is
recognised; and on an unrecognised host it raises `AttributeError` (the
method `have_qemu` does not exist) instead of returning the no-op failure
signal. -/
theorem containerize_spawns_without_emulation_check :
    Architecture.match_current_arch "x86_64" = some .amd64 ∧
    Architecture.amd64 ≠ .arm64 ∧
    containerize .arm64 "x86_64" "/var/ab/cross-root/arm64" none [] =
      .ok (.spawned ["systemd-nspawn", "--hostname=abcross-arm64", "-D",
        "/var/ab/cross-root/arm64", "--as-pid2", "/bin/sh"]) ∧
    containerize .arm64 "mips64" "/var/ab/cross-root/arm64" none [] =
      .error (.attributeError "have_qemu") := by
  refine ⟨rfl, by decide, ?_, rfl⟩
  decide

/-- Claim C6 (code bug evidence): `has_qemu_program` degrades to `None` when
the binfmt registration file is absent or disabled, but as soon as the
registration is enabled it raises `NameError` — `common.py` uses `re.match`
without importing `re` — instead of checking the interpreter and degrading to
`None` on a mismatch. -/
theorem has_qemu_program_raises_nameerror :
    Architecture.has_qemu_program .arm64 none = .ok none ∧
    Architecture.has_qemu_program .arm64
      (some ["disabled\n", "interpreter /usr/bin/qemu-aarch64-static\n"]) = .ok none ∧
    Architecture.has_qemu_program .arm64
      (some ["enabled\n", "interpreter /usr/bin/qemu-aarch64-static\n"]) =
      .error (.nameError "re") := by
  refine ⟨rfl, by decide, by decide⟩

/-- Claim C9: the architecture-to-emulation-name mapping is total over the
closed architecture set (it is a total Lean function) and follows the
`qemu-(emulation arch)-static` pattern, but it is not injective: loongson3
and mips64r6el both map to the qemu architecture `mips64el`, hence to the
same emulation binary name and the same binfmt registration path. -/
theorem qemu_mapping_not_injective :
    (∀ a : Architecture, a.qemu_bin = "qemu-" ++ a.qemu_arch ++ "-static") ∧
    Architecture.loongson3.qemu_arch = "mips64el" ∧
    Architecture.mips64r6el.qemu_arch = "mips64el" ∧
    Architecture.loongson3.qemu_bin = Architecture.mips64r6el.qemu_bin ∧
    Architecture.loongson3.qemu_bin = "qemu-mips64el-static" ∧
    Architecture.loongson3.binfmt_reg_name = Architecture.mips64r6el.binfmt_reg_name ∧
    Architecture.loongson3 ≠ Architecture.mips64r6el ∧
    ¬ Function.Injective Architecture.qemu_arch := by
  refine ⟨fun a => rfl, by decide, by decide, by decide, by decide, by decide,
    by decide, fun hinj => ?_⟩
  exact absurd (hinj (show Architecture.loongson3.qemu_arch
    = Architecture.mips64r6el.qemu_arch by decide)) (by decide)

/-- Claim C2 as frozen is falsified by the code: a manifest holding two
matching amd64 Base entries (so the greatest-dated match exists) plus a
later group with an unknown name makes `get_release_tarball_info` raise
`ValueError` instead of returning the greatest-dated match. -/
theorem resolver_latest_claim_counterexample :
    matchingEntries manifestBogusTail .amd64 .base = [entryBase0508, entryBase0826] ∧
    pyMaxByDate entryBase0508 [entryBase0826] = entryBase0826 ∧
    get_release_tarball_info manifestBogusTail .amd64 .base =
      .error (.valueError "Bogus is not a valid Variant") :=
  ⟨by decide, by decide, by decide⟩

/-- Claim C2 (amended): for every manifest whose group names are all valid
variant labels and whose entries under the requested variant all carry valid
architecture strings, if at least one entry matches the (architecture,
variant) request then `get_release_tarball_info` returns the matching entry
with the lexicographically greatest release-date string, the
first-encountered one when several share that greatest date. -/
theorem resolver_returns_latest
    (gs : List VariantGroup) (a : Architecture) (v : Variant)
    (t : TarballEntry) (ts : List TarballEntry)
    (h1 : ∀ g ∈ gs, (Variant.ofString g.name).isSome)
    (h2 : ∀ u ∈ variantTarballs gs v, (Architecture.ofString u.arch).isSome)
    (hm : matchingEntries ⟨some gs⟩ a v = t :: ts) :
    get_release_tarball_info ⟨some gs⟩ a v = .ok (some (pyMaxByDate t ts)) ∧
    pyMaxByDate t ts ∈ matchingEntries ⟨some gs⟩ a v ∧
    (∀ u ∈ matchingEntries ⟨some gs⟩ a v, pyStrLe u.date (pyMaxByDate t ts).date) ∧
    ∃ l₁ l₂, matchingEntries ⟨some gs⟩ a v = l₁ ++ pyMaxByDate t ts :: l₂ ∧
      ∀ u ∈ l₁, pyStrLt u.date (pyMaxByDate t ts).date := by
  have hmf : (variantTarballs gs v).filter
      (fun u => decide (Architecture.ofString u.arch = some a)) = t :: ts := by
    simpa [matchingEntries] using hm
  have hany : gs.any (fun g => decide (Variant.ofString g.name = some v)) = true := by
    have ht : t ∈ variantTarballs gs v := by
      have h0 : t ∈ (variantTarballs gs v).filter
          (fun u => decide (Architecture.ofString u.arch = some a)) :=
        hmf ▸ List.mem_cons_self t ts
      exact List.mem_of_mem_filter h0
    rw [variantTarballs] at ht
    obtain ⟨g, hg, -⟩ := List.mem_flatMap.mp ht
    have hg2 := List.mem_filter.mp hg
    exact List.any_eq_true.mpr ⟨g, hg2.1, hg2.2⟩
  obtain ⟨pairs, hp, hf⟩ := parseGroups_ok gs h1
  have hmem := dict_any_eq v hf
  have hget := dict_get_eq v hf
  have hfa := filterArch_ok (variantTarballs gs v) a h2
  refine ⟨?_, hm ▸ pyMaxByDate_mem ts t, fun u hu => pyMaxByDate_ge ts t u (hm ▸ hu), ?_⟩
  · simp only [get_release_tarball_info, hp]
    rw [if_pos (hmem.trans hany), hget, hfa, hmf]
  · obtain ⟨l₁, l₂, heq, hlt⟩ := pyMaxByDate_split ts t
    exact ⟨l₁, l₂, hm.trans heq, hlt⟩

/-- Witness for C2 at the spec's concrete example: two amd64 Base entries
dated 20220508 and 20220826 — the resolver picks the 20220826 entry. -/
theorem resolver_returns_latest_witness :
    (∀ g ∈ groupsExample, (Variant.ofString g.name).isSome) ∧
    (∀ u ∈ variantTarballs groupsExample .base, (Architecture.ofString u.arch).isSome) ∧
    matchingEntries ⟨some groupsExample⟩ .amd64 .base = [entryBase0508, entryBase0826] ∧
    pyMaxByDate entryBase0508 [entryBase0826] = entryBase0826 ∧
    (get_release_tarball_info ⟨some groupsExample⟩ .amd64 .base =
        .ok (some (pyMaxByDate entryBase0508 [entryBase0826])) ∧
      pyMaxByDate entryBase0508 [entryBase0826] ∈
        matchingEntries ⟨some groupsExample⟩ .amd64 .base ∧
      (∀ u ∈ matchingEntries ⟨some groupsExample⟩ .amd64 .base,
        pyStrLe u.date (pyMaxByDate entryBase0508 [entryBase0826]).date) ∧
      ∃ l₁ l₂, matchingEntries ⟨some groupsExample⟩ .amd64 .base =
          l₁ ++ pyMaxByDate entryBase0508 [entryBase0826] :: l₂ ∧
        ∀ u ∈ l₁, pyStrLt u.date (pyMaxByDate entryBase0508 [entryBase0826]).date) :=
  ⟨by decide, by decide, by decide, by decide,
    resolver_returns_latest groupsExample .amd64 .base entryBase0508 [entryBase0826]
      (by decide) (by decide) (by decide)⟩

/-- Claim C3 as frozen is falsified by the code: a manifest whose variants
list holds a group with an unknown name has no matching tarball for
(amd64, Base), yet `get_release_tarball_info` raises `ValueError` instead of
returning `None`. -/
theorem resolver_absent_claim_counterexample :
    matchingEntries manifestBogusOnly .amd64 .base = [] ∧
    get_release_tarball_info manifestBogusOnly .amd64 .base =
      .error (.valueError "Bogus is not a valid Variant") :=
  ⟨by decide, by decide⟩

/-- Claim C3 (amended): for every manifest with a variants list whose group
names are all valid variant labels and whose entries under the requested
variant all carry valid architecture strings, if no entry matches the
(architecture, variant) request — variant absent or no architecture match —
then `get_release_tarball_info` returns `None` without raising. -/
theorem resolver_absent_returns_none
    (gs : List VariantGroup) (a : Architecture) (v : Variant)
    (h1 : ∀ g ∈ gs, (Variant.ofString g.name).isSome)
    (h2 : ∀ u ∈ variantTarballs gs v, (Architecture.ofString u.arch).isSome)
    (hm : matchingEntries ⟨some gs⟩ a v = []) :
    get_release_tarball_info ⟨some gs⟩ a v = .ok none := by
  obtain ⟨pairs, hp, hf⟩ := parseGroups_ok gs h1
  have hget := dict_get_eq v hf
  have hfa := filterArch_ok (variantTarballs gs v) a h2
  have hmf : (variantTarballs gs v).filter
      (fun u => decide (Architecture.ofString u.arch = some a)) = [] := by
    simpa [matchingEntries] using hm
  simp only [get_release_tarball_info, hp]
  by_cases hany : pairs.any (fun p => decide (p.1 = v)) = true
  · rw [if_pos hany, hget, hfa, hmf]
  · rw [if_neg hany]

/-- Witness for C3: the example manifest has no arm64 Base entry, and the
resolver yields `None`. -/
theorem resolver_absent_returns_none_witness :
    (∀ g ∈ groupsExample, (Variant.ofString g.name).isSome) ∧
    (∀ u ∈ variantTarballs groupsExample .base, (Architecture.ofString u.arch).isSome) ∧
    matchingEntries ⟨some groupsExample⟩ .arm64 .base = [] ∧
    get_release_tarball_info ⟨some groupsExample⟩ .arm64 .base = .ok none :=
  ⟨by decide, by decide, by decide,
    resolver_absent_returns_none groupsExample .arm64 .base
      (by decide) (by decide) (by decide)⟩

/-- Claim C7: whenever the tarball path does not exist or is not a regular
file, or the destination does not exist, is not a directory, or contains an
entry, `extract_tarball` fails with a `ValueError` and the external archiver
process is never invoked — in particular extraction never merges into
existing destination content. -/
theorem extract_precondition_blocks_archiver (fs : ExtractFS)
    (h : fs.tarballExists = false ∨ fs.tarballIsFile = false ∨ fs.destExists = false ∨
      fs.destIsDir = false ∨ fs.destHasEntry = true) :
    ∃ msg, extract_tarball fs = ⟨false, .error (.valueError msg)⟩ := by
  obtain ⟨te, tf, de, di, dh, tr⟩ := fs
  simp only at h
  cases te <;> cases tf <;> cases de <;> cases di <;> cases dh <;>
    first
      | exact ⟨_, rfl⟩
      | simp_all

/-- Witness for C7: a valid tarball against a non-empty destination
directory is rejected without spawning the archiver. -/
theorem extract_precondition_blocks_archiver_witness :
    ((⟨true, true, true, true, true, 0⟩ : ExtractFS).tarballExists = false ∨
      (⟨true, true, true, true, true, 0⟩ : ExtractFS).tarballIsFile = false ∨
      (⟨true, true, true, true, true, 0⟩ : ExtractFS).destExists = false ∨
      (⟨true, true, true, true, true, 0⟩ : ExtractFS).destIsDir = false ∨
      (⟨true, true, true, true, true, 0⟩ : ExtractFS).destHasEntry = true) ∧
    ∃ msg, extract_tarball ⟨true, true, true, true, true, 0⟩ =
      ⟨false, .error (.valueError msg)⟩ :=
  ⟨by decide, extract_precondition_blocks_archiver ⟨true, true, true, true, true, 0⟩
    (by decide)⟩

/-- Claim C8: when the release resolves, the destination is a non-empty
directory and force is not set, `do_deploy` returns status 1 having performed
no side effect at all — nothing deleted, nothing downloaded. -/
theorem deploy_refuses_nonempty_destination
    (w : World) (args : Args) (t : TarballEntry)
    (hres : get_release_tarball_info w.manifest w.arch w.variant = .ok (some t))
    (hdir : w.destIsDir = true) (hne : w.destNonEmpty = true)
    (hforce : args.force = false) :
    do_deploy w args = ⟨[], .ok 1⟩ := by
  simp only [do_deploy, hres]
  rw [if_pos ⟨hdir, hne⟩, if_pos (by simp [hforce])]

/-- Witness for C8: a concrete run against a populated destination without
force exits 1 with an empty action trace. -/
theorem deploy_refuses_nonempty_destination_witness :
    get_release_tarball_info worldNonEmptyDest.manifest worldNonEmptyDest.arch
      worldNonEmptyDest.variant = .ok (some entryBase0826) ∧
    worldNonEmptyDest.destIsDir = true ∧
    worldNonEmptyDest.destNonEmpty = true ∧
    (⟨false, false⟩ : Args).force = false ∧
    do_deploy worldNonEmptyDest ⟨false, false⟩ = ⟨[], .ok 1⟩ :=
  ⟨by decide, by decide, by decide, by decide,
    deploy_refuses_nonempty_destination worldNonEmptyDest ⟨false, false⟩ entryBase0826
      (by decide) (by decide) (by decide) (by decide)⟩

/-- Claim C10: when the destination path exists but is not a directory,
`do_deploy` neither refuses with status 1 nor deletes the path nor creates a
directory; it stages and downloads the tarball, and the run only fails when
the extraction precondition rejects the non-directory destination. -/
theorem deploy_nondir_destination_fails_at_extract
    (w : World) (args : Args) (t : TarballEntry)
    (hres : get_release_tarball_info w.manifest w.arch w.variant = .ok (some t))
    (hex : w.destExists = true) (hdir : w.destIsDir = false)
    (hc : args.cache = false) (hct : w.cachedTarballExists = false)
    (hdl : w.downloadError = none) :
    do_deploy w args = ⟨[.mkTempDir, .rmStaleTarball, .download],
      .error (.valueError "Destination sysroot is not a directory")⟩ := by
  simp only [do_deploy, hres]
  rw [if_neg (by simp [hdir]), if_neg (by simp [hex])]
  simp [deployStage2, deployStage2.deployExtract, extract_tarball, hc, hct, hdl, hex, hdir]

/-- Witness for C10: a concrete run against a regular-file destination
downloads the tarball and dies on the extraction precondition. -/
theorem deploy_nondir_destination_fails_at_extract_witness :
    get_release_tarball_info worldFileDest.manifest worldFileDest.arch
      worldFileDest.variant = .ok (some entryBase0826) ∧
    worldFileDest.destExists = true ∧
    worldFileDest.destIsDir = false ∧
    (⟨false, false⟩ : Args).cache = false ∧
    worldFileDest.cachedTarballExists = false ∧
    worldFileDest.downloadError = none ∧
    do_deploy worldFileDest ⟨false, false⟩ = ⟨[.mkTempDir, .rmStaleTarball, .download],
      .error (.valueError "Destination sysroot is not a directory")⟩ :=
  ⟨by decide, by decide, by decide, by decide, by decide, by decide,
    deploy_nondir_destination_fails_at_extract worldFileDest ⟨false, false⟩ entryBase0826
      (by decide) (by decide) (by decide) (by decide) (by decide) (by decide)⟩

end Abcross
